/-
Verification of the cached-text module (`src/graphics/text_cached.rs`).

The module is embedded shallowly:

* Rust `f32` values that the module only ever compares against `f32::INFINITY`
  and combines by exact `+`/`*` are idealised as the type `F32` below: either
  the distinguished value `+infinity` or an exact rational.  (The module never
  produces NaN or negative infinity on the paths modelled here, and no claim
  depends on rounding.)
* The external `gfx_glyph` rasterizer collaborator is a parameter: a `Context`
  carries the context default color and the glyph-placement function
  `calculate_glyphs`, exactly the interface the module consumes.
* Methods taking `&mut self` become pure functions `TextCached → ... × TextCached`
  returning the value together with the updated receiver.
* `replace_fragment`'s out-of-bounds vector indexing, which in Rust raises an
  index-out-of-bounds panic before any field of the receiver is touched, is
  modelled as `Option`: `none` is the out-of-bounds failure.
* The 4×4 matrices of `draw_queued` are `Matrix (Fin 4) (Fin 4) ℝ`, built
  entry-by-entry from the nalgebra constructors the code calls.
-/
import Mathlib

/-- Idealised `f32`: the distinguished `+infinity` or an exact rational.
The module compares such values only against `f32::INFINITY` and adds or
multiplies finite ones. -/
inductive F32 where
  | inf : F32
  | fin : ℚ → F32
deriving DecidableEq, Repr

namespace F32

/-- IEEE addition restricted to the values of `F32` (no NaN inputs arise). -/
def add : F32 → F32 → F32
  | inf, _ => inf
  | fin _, inf => inf
  | fin a, fin b => fin (a + b)

/-- Multiplication; every use in the module has both factors finite (the
`inf` clauses are never exercised because the code guards on
`bounds.x != f32::INFINITY` first). -/
def mul : F32 → F32 → F32
  | inf, _ => inf
  | fin _, inf => inf
  | fin a, fin b => fin (a * b)

end F32

/-- 2D point with `f32` coordinates (`Point2` in the source). -/
structure Point2 where
  x : F32
  y : F32
deriving DecidableEq, Repr

/-- RGBA color; components idealised as exact rationals. -/
structure Color where
  r : ℚ
  g : ℚ
  b : ℚ
  a : ℚ
deriving DecidableEq, Repr

/-- Font handle of the rasterizer collaborator (`gfx_glyph::FontId`). -/
structure FontId where
  id : ℕ
deriving DecidableEq, Repr

/-- Font scale of the rasterizer collaborator (`gfx_glyph::Scale`). -/
structure Scale where
  x : ℚ
  y : ℚ
deriving DecidableEq, Repr

/-- `gfx_glyph::HorizontalAlign`. -/
inductive HorizontalAlign where
  | left
  | center
  | right
deriving DecidableEq, Repr

/-- `gfx_glyph::VerticalAlign`. -/
inductive VerticalAlign where
  | top
  | center
  | bottom
deriving DecidableEq, Repr

/-- `gfx_glyph::Layout` (the line-breaker type parameter carries no data the
module reads, so it is dropped): either single-line or wrap, each with a
horizontal and a vertical alignment. -/
inductive Layout where
  | singleLine (h_align : HorizontalAlign) (v_align : VerticalAlign)
  | wrap (h_align : HorizontalAlign) (v_align : VerticalAlign)
deriving DecidableEq, Repr

/-- `gfx_glyph`'s `Layout::default()`: wrap with left/top alignment. -/
def Layout.default : Layout := .wrap .left .top

/-- Blend mode: an abstract handle, stored by the module but never
interpreted (placeholder field in the source). -/
structure BlendMode where
  mode : ℕ
deriving DecidableEq, Repr

/-- `DEFAULT_FONT_SCALE`. -/
def DEFAULT_FONT_SCALE : ℚ := 16

/-- A piece of text with optional color, font and font scale information
(struct `TextFragment`). -/
structure TextFragment where
  text : String
  color : Option Color
  font_id : Option FontId
  scale : Option Scale
deriving DecidableEq, Repr

/-- `TextFragment::default()`: empty text, no overrides. -/
def TextFragment.default : TextFragment :=
  { text := "", color := none, font_id := none, scale := none }

/-- One style run handed to the rasterizer (`gfx_glyph::SectionText`; the
`[f32; 4]` color conversion is componentwise and kept as `Color`). -/
structure SectionText where
  text : String
  color : Color
  font_id : FontId
  scale : Scale
deriving DecidableEq, Repr

/-- The rasterizer-facing layout request (`gfx_glyph::VariedSection`),
restricted to the fields the module writes. -/
structure VariedSection where
  screen_position : F32 × F32
  bounds : F32 × F32
  layout : Layout
  text : List SectionText
deriving DecidableEq, Repr

/-- A glyph pixel bounding box (`rusttype::Rect<i32>`); only the far edges
are read by the module. -/
structure GlyphRect where
  max_x : ℤ
  max_y : ℤ
deriving DecidableEq, Repr

/-- The slice of the rendering context the module reads: the context-wide
default color (`get_color`) and the rasterizer collaborator's
`calculate_glyphs`, returning per-run lists of positioned glyphs, each with
an optional pixel bounding box (absent for non-rendering glyphs). -/
structure Context where
  default_color : Color
  calculate_glyphs : VariedSection → List (List (Option GlyphRect))

/-- Drawable text (struct `TextCached`). -/
structure TextCached where
  fragments : List TextFragment
  blend_mode : Option BlendMode
  bounds : Point2
  layout : Layout
  font_id : FontId
  font_scale : Scale
  cached_string : Option String
  cached_width : Option ℕ
  cached_height : Option ℕ
deriving DecidableEq, Repr

namespace TextCached

/-- `TextCached::default()`: no fragments, infinite bounds, default layout,
default font, uniform default scale, empty caches. -/
def default : TextCached :=
  { fragments := []
    blend_mode := none
    bounds := { x := F32.inf, y := F32.inf }
    layout := Layout.default
    font_id := { id := 0 }
    font_scale := { x := DEFAULT_FONT_SCALE, y := DEFAULT_FONT_SCALE }
    cached_string := none
    cached_width := none
    cached_height := none }

/-- `new_empty` ignores the context and returns the default aggregate. -/
def new_empty (_context : Context) : TextCached := default

/-- `invalidate_caches`: clears all three cache fields. -/
def invalidate_caches (s : TextCached) : TextCached :=
  { s with cached_string := none, cached_width := none, cached_height := none }

/-- `add_fragment`: appends to the fragment sequence, then invalidates the
caches. -/
def add_fragment (s : TextCached) (fragment : TextFragment) : TextCached :=
  invalidate_caches { s with fragments := s.fragments ++ [fragment] }

/-- `new`: `new_empty` followed by `add_fragment`. -/
def new (context : Context) (fragment : TextFragment) : TextCached :=
  add_fragment (new_empty context) fragment

/-- `replace_fragment`: writes `fragments[old_index]`.  Rust's vector
indexing raises an index-out-of-bounds panic when
`old_index >= fragments.len()`, before anything is mutated; that failure is
`none` here.  In range, the fragment is replaced and the caches are
invalidated. -/
def replace_fragment (s : TextCached) (old_index : ℕ)
    (new_fragment : TextFragment) : Option TextCached :=
  if old_index < s.fragments.length then
    some (invalidate_caches
      { s with fragments := s.fragments.set old_index new_fragment })
  else
    none

/-- `set_bounds`: stores the bounds; if the new `bounds.x` equals
`f32::INFINITY` the layout is reset to `Layout::default()` (ignoring the
argument), otherwise a supplied layout is adopted and an absent one leaves
the layout unchanged; always invalidates the caches. -/
def set_bounds (s : TextCached) (bounds : Point2) (layout : Option Layout) :
    TextCached :=
  let s₁ := { s with bounds := bounds }
  let s₂ :=
    if s₁.bounds.x = F32.inf then
      { s₁ with layout := Layout.default }
    else
      match layout with
      | some l => { s₁ with layout := l }
      | none => s₁
  invalidate_caches s₂

/-- `set_font`: stores the aggregate default font and scale, invalidates the
caches. -/
def set_font (s : TextCached) (font_id : FontId) (font_scale : Scale) :
    TextCached :=
  invalidate_caches { s with font_id := font_id, font_scale := font_scale }

/-- `generate_varied_section`: resolves each fragment's style (fragment
override, else per-call override, else context default for color; fragment
override, else aggregate default for font and scale), emits one run per
fragment in order, and adjusts the x-origin for wrap-with-alignment layouts
when `bounds.x` is finite. -/
def generate_varied_section (s : TextCached) (context : Context)
    (relative_dest : Point2) (color : Option Color) : VariedSection :=
  let sections := s.fragments.map fun fragment =>
    let c :=
      match fragment.color with
      | some c => c
      | none =>
        match color with
        | some c => c
        | none => context.default_color
    let font_id :=
      match fragment.font_id with
      | some font_id => font_id
      | none => s.font_id
    let scale :=
      match fragment.scale with
      | some scale => scale
      | none => s.font_scale
    ({ text := fragment.text, color := c, font_id := font_id, scale := scale }
      : SectionText)
  let dest_x :=
    if s.bounds.x ≠ F32.inf then
      match s.layout with
      | Layout.wrap h_align _ =>
        match h_align with
        | HorizontalAlign.center =>
          F32.add relative_dest.x (F32.mul s.bounds.x (F32.fin (1 / 2)))
        | HorizontalAlign.right => F32.add relative_dest.x s.bounds.x
        | _ => relative_dest.x
      | _ => relative_dest.x
    else
      relative_dest.x
  { screen_position := (dest_x, relative_dest.y)
    bounds := (s.bounds.x, s.bounds.y)
    layout := s.layout
    text := sections }

/-- The glyph-walk of `calculate_dimensions`: running maxima of the far
edges of every present pixel bounding box, starting from `(0, 0)`. -/
def glyph_walk (runs : List (List (Option GlyphRect))) : ℤ × ℤ :=
  runs.foldl
    (fun acc run =>
      run.foldl
        (fun m g =>
          match g with
          | some rect =>
            (if rect.max_x > m.1 then rect.max_x else m.1,
             if rect.max_y > m.2 then rect.max_y else m.2)
          | none => m)
        acc)
    (0, 0)

/-- `calculate_dimensions`: builds a section at `(0, 0)` with no color
override, asks the rasterizer for glyph placements, walks the bounding
boxes, and writes both `cached_width` and `cached_height`.  The running
maxima start at `0` and never decrease, so the Rust `as u32` cast is
`Int.toNat`. -/
def calculate_dimensions (s : TextCached) (context : Context) :
    (ℕ × ℕ) × TextCached :=
  let varied_section :=
    generate_varied_section s context { x := F32.fin 0, y := F32.fin 0 } none
  let m := glyph_walk (context.calculate_glyphs varied_section)
  let width := m.1.toNat
  let height := m.2.toNat
  ((width, height),
    { s with cached_width := some width, cached_height := some height })

/-- `width`: cached value if present, otherwise the first component of
`calculate_dimensions`. -/
def width (s : TextCached) (context : Context) : ℕ × TextCached :=
  match s.cached_width with
  | some w => (w, s)
  | none =>
    let r := calculate_dimensions s context
    (r.1.1, r.2)

/-- `height`: cached value if present, otherwise the second component of
`calculate_dimensions`. -/
def height (s : TextCached) (context : Context) : ℕ × TextCached :=
  match s.cached_height with
  | some h => (h, s)
  | none =>
    let r := calculate_dimensions s context
    (r.1.2, r.2)

/-- `contents`: cached string if present, otherwise the left fold
concatenating every fragment's text, which is then cached. -/
def contents (s : TextCached) : String × TextCached :=
  match s.cached_string with
  | some string => (string, s)
  | none =>
    let string := s.fragments.foldl (fun acc frg => acc ++ frg.text) ""
    (string, { s with cached_string := some string })

/-- `Drawable::set_blend_mode`: stores the mode, touching nothing else. -/
def set_blend_mode (s : TextCached) (mode : Option BlendMode) : TextCached :=
  { s with blend_mode := mode }

/-- `Drawable::get_blend_mode`. -/
def get_blend_mode (s : TextCached) : Option BlendMode :=
  s.blend_mode

end TextCached

/-! ## Draw-transform composition (`draw_queued`, lines 355–414) -/

/-- The draw-parameter fields `draw_queued` reads (dest, rotation, scale,
shear); `color` and `offset` are ignored on this path. -/
structure DrawParam where
  dest : ℝ × ℝ
  rotation : ℝ
  scale : ℝ × ℝ
  shear : ℝ × ℝ

/-- 4×4 real matrix (`na::Matrix4<f32>`, idealised over ℝ). -/
abbrev Mat4 := Matrix (Fin 4) (Fin 4) ℝ

/-- nalgebra `Matrix4::new_nonuniform_scaling(&Vec3::new(x, y, z))`. -/
def new_nonuniform_scaling (x y z : ℝ) : Mat4 :=
  !![x, 0, 0, 0; 0, y, 0, 0; 0, 0, z, 0; 0, 0, 0, 1]

/-- nalgebra `Matrix4::new_translation(&Vec3::new(x, y, z))`. -/
def new_translation (x y z : ℝ) : Mat4 :=
  !![1, 0, 0, x; 0, 1, 0, y; 0, 0, 1, z; 0, 0, 0, 1]

/-- nalgebra `Matrix4::new_rotation(θ * Vec3::z())`: rotation by `θ` about
the viewing (z) axis. -/
noncomputable def new_rotation_z (θ : ℝ) : Mat4 :=
  !![Real.cos θ, -Real.sin θ, 0, 0;
     Real.sin θ, Real.cos θ, 0, 0;
     0, 0, 1, 0;
     0, 0, 0, 1]

/-- The transform composed by `draw_queued`:
`m_translate * m_offset * m_aspect * m_rotation * m_scale * m_shear *
m_aspect_inv * m_offset_inv`, with `aspect = screen_h / screen_w`,
`aspect_inv = screen_w / screen_h`, `m_aspect` scaling y by `aspect_inv`,
`m_aspect_inv` scaling y by `aspect`, and the shear matrix written
row-major as `Mat4::new(1, -shear.x, 0, 0, -shear.y, 1, 0, 0, ...)`. -/
noncomputable def m_transform (p : DrawParam) (screen_w screen_h : ℝ) : Mat4 :=
  let offset_x : ℝ := -1
  let offset_y : ℝ := 1
  let aspect := screen_h / screen_w
  let aspect_inv := screen_w / screen_h
  let m_aspect := new_nonuniform_scaling 1 aspect_inv 1
  let m_aspect_inv := new_nonuniform_scaling 1 aspect 1
  let m_scale := new_nonuniform_scaling p.scale.1 p.scale.2 1
  let m_shear : Mat4 :=
    !![1, -p.shear.1, 0, 0;
       -p.shear.2, 1, 0, 0;
       0, 0, 1, 0;
       0, 0, 0, 1]
  let m_rotation := new_rotation_z (-p.rotation)
  let m_offset := new_translation offset_x offset_y 0
  let m_offset_inv := new_translation (-offset_x) (-offset_y) 0
  let m_translate :=
    new_translation (2 * p.dest.1 / screen_w) (2 * -p.dest.2 / screen_h) 0
  m_translate * m_offset * m_aspect * m_rotation * m_scale * m_shear *
    m_aspect_inv * m_offset_inv

/-- Action of a 4×4 transform on a 2D point (a glyph vertex at z = 0,
homogeneous coordinate 1). -/
def apply_transform (M : Mat4) (pt : ℝ × ℝ) : ℝ × ℝ :=
  (M.mulVec ![pt.1, pt.2, 0, 1] 0, M.mulVec ![pt.1, pt.2, 0, 1] 1)

/-- Translation as a point map. -/
def translateP (tx ty : ℝ) (pt : ℝ × ℝ) : ℝ × ℝ := (pt.1 + tx, pt.2 + ty)

/-- Scaling of the y coordinate only. -/
def scaleYP (k : ℝ) (pt : ℝ × ℝ) : ℝ × ℝ := (pt.1, k * pt.2)

/-- Rotation of a point by `θ` about the viewing axis. -/
noncomputable def rotateP (θ : ℝ) (pt : ℝ × ℝ) : ℝ × ℝ :=
  (Real.cos θ * pt.1 - Real.sin θ * pt.2,
   Real.sin θ * pt.1 + Real.cos θ * pt.2)

/-- Nonuniform scaling of a point. -/
def scaleP (sx sy : ℝ) (pt : ℝ × ℝ) : ℝ × ℝ := (sx * pt.1, sy * pt.2)

/-- The shear point map of the code's shear matrix: the cross term added to
the x coordinate is driven by `shear.x` negated and the one added to the y
coordinate by `shear.y` negated. -/
def shearP (sx sy : ℝ) (pt : ℝ × ℝ) : ℝ × ℝ :=
  (pt.1 - sx * pt.2, pt.2 - sy * pt.1)

/-- The transform chain exactly as the claim words it (rightmost factor
applied first): translate by
`(2·dest.x/screen_w, -2·dest.y/screen_h)`, after recentering by `(-1, 1)`,
with the aspect factor `screen_w/screen_h` applied to y BEFORE
rotation/scale/shear and `screen_h/screen_w` AFTER, rotation by
`-rotation`, the draw-parameter scale, and a shear whose x cross term is
driven by the shear y-component and whose y cross term by the shear
x-component, both negated (`shearP shear.y shear.x`). -/
noncomputable def claimed_chain (p : DrawParam) (screen_w screen_h : ℝ) (pt : ℝ × ℝ) :
    ℝ × ℝ :=
  translateP (2 * p.dest.1 / screen_w) (2 * -p.dest.2 / screen_h)
    (translateP (-1) 1
      (scaleYP (screen_h / screen_w)
        (rotateP (-p.rotation)
          (scaleP p.scale.1 p.scale.2
            (shearP p.shear.2 p.shear.1
              (scaleYP (screen_w / screen_h)
                (translateP 1 (-1) pt)))))))

/-- The same chain with the aspect factors and the shear the way the code
applies them: y is scaled by `screen_h/screen_w` BEFORE
rotation/scale/shear and by `screen_w/screen_h` AFTER, and the shear's x
cross term is `-shear.x`, its y cross term `-shear.y`
(`shearP shear.x shear.y`). -/
noncomputable def amended_chain (p : DrawParam) (screen_w screen_h : ℝ) (pt : ℝ × ℝ) :
    ℝ × ℝ :=
  translateP (2 * p.dest.1 / screen_w) (2 * -p.dest.2 / screen_h)
    (translateP (-1) 1
      (scaleYP (screen_w / screen_h)
        (rotateP (-p.rotation)
          (scaleP p.scale.1 p.scale.2
            (shearP p.shear.1 p.shear.2
              (scaleYP (screen_h / screen_w)
                (translateP 1 (-1) pt)))))))

/-- `mulVec` of an explicit 4×4 matrix on an explicit 4-vector. -/
theorem mulVec4 (a b c d e f g h' i j k l m n o q x y z w : ℝ) :
    (!![a, b, c, d; e, f, g, h'; i, j, k, l; m, n, o, q]).mulVec
        ![x, y, z, w] =
      ![a * x + b * y + c * z + d * w, e * x + f * y + g * z + h' * w,
        i * x + j * y + k * z + l * w, m * x + n * y + o * z + q * w] := by
  funext idx
  fin_cases idx <;>
    simp [Matrix.mulVec, Matrix.dotProduct, Fin.sum_univ_four]

set_option maxHeartbeats 1600000 in
/-- Evaluation of the composed draw transform on a point: it acts exactly
as the code-ordered chain of elementary maps. -/
theorem m_transform_eval (p : DrawParam) (screen_w screen_h : ℝ)
    (pt : ℝ × ℝ) :
    apply_transform (m_transform p screen_w screen_h) pt =
      amended_chain p screen_w screen_h pt := by
  obtain ⟨⟨dx, dy⟩, rot, ⟨sx, sy⟩, ⟨shx, shy⟩⟩ := p
  obtain ⟨ptx, pty⟩ := pt
  simp only [m_transform, apply_transform]
  simp only [← Matrix.mulVec_mulVec]
  simp only [new_translation, new_nonuniform_scaling, new_rotation_z,
    mulVec4, mul_zero, zero_mul, mul_one, one_mul, add_zero, zero_add,
    neg_zero, neg_neg, mul_neg, neg_mul]
  simp only [amended_chain, translateP, scaleYP, rotateP, scaleP, shearP]
  simp only [Matrix.cons_val_zero, Matrix.cons_val_one, Matrix.head_cons,
    Prod.mk.injEq]
  constructor <;> ring

/-! ## Reachable states of the public API -/

namespace TextCached

/-- The concatenation `contents` computes when the cache is empty. -/
def concatenated (s : TextCached) : String :=
  s.fragments.foldl (fun acc frg => acc ++ frg.text) ""

/-- The width/height pair one measurement pass computes for the current
state. -/
def measured (s : TextCached) (context : Context) : ℕ × ℕ :=
  (s.calculate_dimensions context).1

/-- All three cache fields are clear. -/
def all_caches_none (s : TextCached) : Prop :=
  s.cached_string = none ∧ s.cached_width = none ∧ s.cached_height = none

/-- All three cache fields are populated. -/
def all_caches_some (s : TextCached) : Prop :=
  s.cached_string ≠ none ∧ s.cached_width ≠ none ∧ s.cached_height ≠ none

/-- Every populated cache field agrees with what a fresh computation on the
current fragments/bounds/layout/default-style state would produce. -/
def cache_consistent (s : TextCached) (context : Context) : Prop :=
  (∀ str, s.cached_string = some str → str = s.concatenated) ∧
  (∀ w, s.cached_width = some w → w = (s.measured context).1) ∧
  (∀ h, s.cached_height = some h → h = (s.measured context).2)

/-- One public-API call on an aggregate. -/
inductive Op where
  | add (fragment : TextFragment)
  | replace (index : ℕ) (fragment : TextFragment)
  | setBounds (bounds : Point2) (layout : Option Layout)
  | setFont (font_id : FontId) (font_scale : Scale)
  | getWidth
  | getHeight
  | getContents
  | setBlend (mode : Option BlendMode)

/-- State transition of one call.  An out-of-range `replace` panics in
Rust with the receiver untouched; `getD s` keeps that unmodified receiver,
so `run` reaches exactly the states of panic-free call sequences plus
no-ops. -/
def apply (context : Context) (s : TextCached) : Op → TextCached
  | .add fragment => s.add_fragment fragment
  | .replace index fragment => (s.replace_fragment index fragment).getD s
  | .setBounds bounds layout => s.set_bounds bounds layout
  | .setFont font_id font_scale => s.set_font font_id font_scale
  | .getWidth => (s.width context).2
  | .getHeight => (s.height context).2
  | .getContents => s.contents.2
  | .setBlend mode => s.set_blend_mode mode

/-- The state after a sequence of public-API calls on a fresh aggregate,
all made against one fixed context. -/
def run (context : Context) (ops : List Op) : TextCached :=
  ops.foldl (apply context) default

end TextCached

/-- A concrete context: black default color, a rasterizer that places no
glyphs. -/
def trivial_context : Context :=
  { default_color := { r := 0, g := 0, b := 0, a := 1 }
    calculate_glyphs := fun _ => [] }

namespace TextCached

/-- Measurement depends only on the fragments, bounds, layout and default
style, never on the cache or blend-mode fields. -/
theorem measured_congr (s t : TextCached) (context : Context)
    (h1 : s.fragments = t.fragments) (h2 : s.bounds = t.bounds)
    (h3 : s.layout = t.layout) (h4 : s.font_id = t.font_id)
    (h5 : s.font_scale = t.font_scale) :
    s.measured context = t.measured context := by
  simp only [measured, calculate_dimensions, generate_varied_section,
    h1, h2, h3, h4, h5]

/-- The concatenation depends only on the fragment sequence. -/
theorem concatenated_congr (s t : TextCached)
    (h1 : s.fragments = t.fragments) : s.concatenated = t.concatenated := by
  simp only [concatenated, h1]

/-- The state written by one measurement pass: both measurement caches are
filled, everything else is untouched. -/
theorem calculate_dimensions_state (s : TextCached) (context : Context) :
    (s.calculate_dimensions context).2 =
      { s with cached_width := some (s.measured context).1,
               cached_height := some (s.measured context).2 } := rfl

/-- After `invalidate_caches` the three cache fields are clear. -/
theorem invalidate_caches_none (s : TextCached) :
    all_caches_none (invalidate_caches s) := ⟨rfl, rfl, rfl⟩

/-- The amended cache invariant: the two measurement caches are populated
together, and every populated cache field is consistent with the current
state (the string cache is populated independently of them). -/
def cache_invariant (s : TextCached) (context : Context) : Prop :=
  (s.cached_width = none ↔ s.cached_height = none) ∧
    cache_consistent s context

/-- A state with all caches clear satisfies the invariant vacuously. -/
theorem cache_invariant_of_none (s : TextCached) (context : Context)
    (h : all_caches_none s) : cache_invariant s context := by
  obtain ⟨h1, h2, h3⟩ := h
  refine ⟨by rw [h2, h3], ?_, ?_, ?_⟩ <;> intro x hx
  · rw [h1] at hx; cases hx
  · rw [h2] at hx; cases hx
  · rw [h3] at hx; cases hx

/-- Every public-API call preserves the cache invariant. -/
theorem cache_invariant_apply (context : Context) (s : TextCached)
    (op : Op) (hs : cache_invariant s context) :
    cache_invariant (apply context s op) context := by
  cases op with
  | add fragment => exact cache_invariant_of_none _ _ (invalidate_caches_none _)
  | replace index fragment =>
    rcases h' : s.replace_fragment index fragment with _ | t
    · simpa [apply, h'] using hs
    · have ht : cache_invariant t context := by
        unfold replace_fragment at h'
        split at h'
        · cases h'
          exact cache_invariant_of_none _ _ (invalidate_caches_none _)
        · cases h'
      simpa [apply, h'] using ht
  | setBounds bounds layout =>
    exact cache_invariant_of_none _ _ (invalidate_caches_none _)
  | setFont font_id font_scale =>
    exact cache_invariant_of_none _ _ (invalidate_caches_none _)
  | getWidth =>
    rcases hw : s.cached_width with _ | w
    · have h2 : apply context s Op.getWidth =
          { s with cached_width := some (s.measured context).1,
                   cached_height := some (s.measured context).2 } := by
        simp [apply, width, hw, calculate_dimensions_state]
      rw [h2]
      obtain ⟨_, hcs, _, _⟩ := hs
      refine ⟨by simp, ?_, ?_, ?_⟩
      · intro str hstr
        have := hcs str hstr
        rw [this]
        exact concatenated_congr _ _ rfl
      · intro x hx
        cases hx
        exact congrArg Prod.fst (measured_congr _ _ context rfl rfl rfl rfl rfl).symm
      · intro x hx
        cases hx
        exact congrArg Prod.snd (measured_congr _ _ context rfl rfl rfl rfl rfl).symm
    · have h2 : apply context s Op.getWidth = s := by simp [apply, width, hw]
      rw [h2]; exact hs
  | getHeight =>
    rcases hh : s.cached_height with _ | h
    · have h2 : apply context s Op.getHeight =
          { s with cached_width := some (s.measured context).1,
                   cached_height := some (s.measured context).2 } := by
        simp [apply, height, hh, calculate_dimensions_state]
      rw [h2]
      obtain ⟨_, hcs, _, _⟩ := hs
      refine ⟨by simp, ?_, ?_, ?_⟩
      · intro str hstr
        have := hcs str hstr
        rw [this]
        exact concatenated_congr _ _ rfl
      · intro x hx
        cases hx
        exact congrArg Prod.fst (measured_congr _ _ context rfl rfl rfl rfl rfl).symm
      · intro x hx
        cases hx
        exact congrArg Prod.snd (measured_congr _ _ context rfl rfl rfl rfl rfl).symm
    · have h2 : apply context s Op.getHeight = s := by simp [apply, height, hh]
      rw [h2]; exact hs
  | getContents =>
    rcases hc : s.cached_string with _ | str
    · have h2 : apply context s Op.getContents =
          { s with cached_string := some s.concatenated } := by
        simp [apply, contents, hc, concatenated]
      rw [h2]
      obtain ⟨hiff, _, hcw, hch⟩ := hs
      refine ⟨by simpa using hiff, ?_, ?_, ?_⟩
      · intro x hx
        cases hx
        exact concatenated_congr _ _ rfl
      · intro x hx
        have := hcw x hx
        rw [this]
        exact congrArg Prod.fst (measured_congr _ _ context rfl rfl rfl rfl rfl)
      · intro x hx
        have := hch x hx
        rw [this]
        exact congrArg Prod.snd (measured_congr _ _ context rfl rfl rfl rfl rfl)
    · have h2 : apply context s Op.getContents = s := by
        simp [apply, contents, hc]
      rw [h2]; exact hs
  | setBlend mode =>
    obtain ⟨hiff, hst, hcw, hch⟩ := hs
    refine ⟨by simpa [apply, set_blend_mode] using hiff, ?_, ?_, ?_⟩
    · intro x hx
      simp only [apply, set_blend_mode] at hx
      have := hst x hx
      rw [this]
      exact concatenated_congr _ _ rfl
    · intro x hx
      simp only [apply, set_blend_mode] at hx
      have := hcw x hx
      rw [this]
      exact congrArg Prod.fst (measured_congr _ _ context rfl rfl rfl rfl rfl)
    · intro x hx
      simp only [apply, set_blend_mode] at hx
      have := hch x hx
      rw [this]
      exact congrArg Prod.snd (measured_congr _ _ context rfl rfl rfl rfl rfl)

end TextCached

/-! ## Supporting concrete objects for witnesses and scenarios -/

/-- Pure red. -/
def red : Color := { r := 1, g := 0, b := 0, a := 1 }

/-- Pure blue. -/
def blue : Color := { r := 0, g := 0, b := 1, a := 1 }

/-- The two-fragment scenario aggregate: `("Hi, ", no color)` then
`("World", Red)`. -/
def hi_world : TextCached :=
  (TextCached.default.add_fragment
      { text := "Hi, ", color := none, font_id := none, scale := none }).add_fragment
    { text := "World", color := some red, font_id := none, scale := none }

/-- An aggregate with finite wrap width 100 and center alignment. -/
def sample_center : TextCached :=
  { TextCached.default with
      bounds := { x := F32.fin 100, y := F32.inf }
      layout := Layout.wrap HorizontalAlign.center VerticalAlign.top }

namespace TextCached

/-- A state whose next measurement/contents calls compute from the current
state: all caches are clear and each reader returns the fresh value. -/
def recomputes_fresh (s : TextCached) (context : Context) : Prop :=
  all_caches_none s ∧
  (s.width context).1 = (s.measured context).1 ∧
  (s.height context).1 = (s.measured context).2 ∧
  s.contents.1 = s.concatenated

/-- Clear caches force every reader down the recomputation path. -/
theorem recomputes_fresh_of_none (s : TextCached) (context : Context)
    (h : all_caches_none s) : recomputes_fresh s context := by
  obtain ⟨h1, h2, h3⟩ := h
  refine ⟨⟨h1, h2, h3⟩, ?_, ?_, ?_⟩
  · simp [width, h2, measured]
  · simp [height, h3, measured]
  · simp [contents, h1, concatenated]

end TextCached

/-! ## The claims -/

/-- C1: `replace_fragment` with an index at or past the fragment count
fails (the out-of-bounds indexing failure, `none` here) with the aggregate
unmodified; with an in-range index it replaces exactly that fragment and
clears all three caches, leaving every other field as it was. -/
theorem C1_replace_fragment_oob (s : TextCached) (i : ℕ) (f : TextFragment) :
    (s.fragments.length ≤ i → s.replace_fragment i f = none) ∧
    (i < s.fragments.length →
      s.replace_fragment i f =
        some (TextCached.invalidate_caches
          { s with fragments := s.fragments.set i f })) := by
  constructor
  · intro h
    simp [TextCached.replace_fragment, Nat.not_lt.mpr h]
  · intro h
    simp [TextCached.replace_fragment, h]

/-- C1 witness: on an empty aggregate index 0 is out of range and the call
fails; after one append, index 0 is in range and the call replaces it. -/
theorem C1_replace_fragment_oob_witness :
    (TextCached.default.fragments.length ≤ 0 ∧
      TextCached.default.replace_fragment 0 TextFragment.default = none) ∧
    (0 < (TextCached.default.add_fragment TextFragment.default).fragments.length ∧
      (TextCached.default.add_fragment TextFragment.default).replace_fragment 0
          TextFragment.default =
        some (TextCached.invalidate_caches
          { TextCached.default.add_fragment TextFragment.default with
              fragments :=
                (TextCached.default.add_fragment
                    TextFragment.default).fragments.set 0
                  TextFragment.default })) := by
  refine ⟨⟨?_, (C1_replace_fragment_oob TextCached.default 0
      TextFragment.default).1 ?_⟩,
    ⟨?_, (C1_replace_fragment_oob
      (TextCached.default.add_fragment TextFragment.default) 0
      TextFragment.default).2 ?_⟩⟩ <;> decide

/-- C3: `set_bounds` stores the new extent; an infinite `x` extent forces
the layout back to the neutral default even when an explicit layout is
supplied; a finite `x` extent adopts a supplied layout and keeps the
current one when none is supplied; the caches are always cleared. -/
theorem C3_set_bounds (s : TextCached) (b : Point2) (l : Option Layout) :
    (s.set_bounds b l).bounds = b ∧
    (b.x = F32.inf → (s.set_bounds b l).layout = Layout.default) ∧
    (b.x ≠ F32.inf → ∀ L, l = some L → (s.set_bounds b l).layout = L) ∧
    (b.x ≠ F32.inf → l = none → (s.set_bounds b l).layout = s.layout) ∧
    TextCached.all_caches_none (s.set_bounds b l) := by
  by_cases hb : b.x = F32.inf
  · cases l <;>
      simp [TextCached.set_bounds, TextCached.invalidate_caches,
        TextCached.all_caches_none, hb]
  · cases l <;>
      simp [TextCached.set_bounds, TextCached.invalidate_caches,
        TextCached.all_caches_none, hb]

/-- C3 witness: with an infinite width and an explicitly supplied
center-wrap layout, the stored layout is the neutral default. -/
theorem C3_set_bounds_witness :
    (({ x := F32.inf, y := F32.fin 0 } : Point2).x = F32.inf) ∧
    (TextCached.default.set_bounds { x := F32.inf, y := F32.fin 0 }
        (some (Layout.wrap HorizontalAlign.center
          VerticalAlign.top))).layout = Layout.default :=
  ⟨rfl, (C3_set_bounds TextCached.default { x := F32.inf, y := F32.fin 0 }
    (some (Layout.wrap HorizontalAlign.center VerticalAlign.top))).2.1 rfl⟩

/-- C5: every mutation — append, successful replace, bounds change,
default-style change — leaves all three caches clear, so the next
`width`/`height`/`contents` call computes from the post-mutation state. -/
theorem C5_mutations_invalidate (context : Context) (s : TextCached)
    (f g : TextFragment) (i : ℕ) (b : Point2) (l : Option Layout)
    (font : FontId) (sc : Scale) :
    TextCached.recomputes_fresh (s.add_fragment f) context ∧
    (∀ s', s.replace_fragment i g = some s' →
      TextCached.recomputes_fresh s' context) ∧
    TextCached.recomputes_fresh (s.set_bounds b l) context ∧
    TextCached.recomputes_fresh (s.set_font font sc) context := by
  refine ⟨?_, ?_, ?_, ?_⟩
  · exact TextCached.recomputes_fresh_of_none _ _ ⟨rfl, rfl, rfl⟩
  · intro s' hs'
    unfold TextCached.replace_fragment at hs'
    split at hs'
    · cases hs'
      exact TextCached.recomputes_fresh_of_none _ _ ⟨rfl, rfl, rfl⟩
    · cases hs'
  · exact TextCached.recomputes_fresh_of_none _ _ ⟨rfl, rfl, rfl⟩
  · exact TextCached.recomputes_fresh_of_none _ _ ⟨rfl, rfl, rfl⟩

/-- C5 witness: a concrete in-range replacement on a one-fragment
aggregate leaves a state whose readers all recompute. -/
theorem C5_mutations_invalidate_witness :
    (TextCached.default.add_fragment TextFragment.default).replace_fragment 0
        TextFragment.default =
      some (TextCached.default.add_fragment TextFragment.default) ∧
    TextCached.recomputes_fresh
      (TextCached.default.add_fragment TextFragment.default)
      trivial_context := by
  have h : (TextCached.default.add_fragment
        TextFragment.default).replace_fragment 0 TextFragment.default =
      some (TextCached.default.add_fragment TextFragment.default) := rfl
  exact ⟨h, (C5_mutations_invalidate trivial_context
    (TextCached.default.add_fragment TextFragment.default)
    TextFragment.default TextFragment.default 0
    { x := F32.inf, y := F32.inf } none { id := 0 }
    { x := 16, y := 16 }).2.1 _ h⟩

/-- C6: the layout-section x-position is `relative_dest.x + bounds.x * 0.5`
for finite bounds with center-aligned wrap, `relative_dest.x + bounds.x`
for right-aligned wrap, and `relative_dest.x` unchanged for left
alignment, single-line layouts, or infinite `bounds.x`; the y-position is
always `relative_dest.y`. -/
theorem C6_position_adjustment (s : TextCached) (context : Context)
    (rd : Point2) (c : Option Color) :
    (s.generate_varied_section context rd c).screen_position.2 = rd.y ∧
    (∀ q va, s.bounds.x = F32.fin q →
      s.layout = Layout.wrap HorizontalAlign.center va →
      (s.generate_varied_section context rd c).screen_position.1 =
        F32.add rd.x (F32.fin (q * (1 / 2)))) ∧
    (∀ q va, s.bounds.x = F32.fin q →
      s.layout = Layout.wrap HorizontalAlign.right va →
      (s.generate_varied_section context rd c).screen_position.1 =
        F32.add rd.x (F32.fin q)) ∧
    (∀ va, s.layout = Layout.wrap HorizontalAlign.left va →
      (s.generate_varied_section context rd c).screen_position.1 = rd.x) ∧
    (∀ ha va, s.layout = Layout.singleLine ha va →
      (s.generate_varied_section context rd c).screen_position.1 = rd.x) ∧
    (s.bounds.x = F32.inf →
      (s.generate_varied_section context rd c).screen_position.1 = rd.x) := by
  refine ⟨rfl, ?_, ?_, ?_, ?_, ?_⟩
  · intro q va hq hl
    simp [TextCached.generate_varied_section, hq, hl, F32.mul]
  · intro q va hq hl
    simp [TextCached.generate_varied_section, hq, hl]
  · intro va hl
    rcases hx : s.bounds.x with _ | q <;>
      simp [TextCached.generate_varied_section, hl, hx]
  · intro ha va hl
    rcases hx : s.bounds.x with _ | q <;>
      simp [TextCached.generate_varied_section, hl, hx]
  · intro hx
    simp [TextCached.generate_varied_section, hx]

/-- C6 witness: wrap width 100 with center alignment shifts the x-origin
by 50. -/
theorem C6_position_adjustment_witness :
    (sample_center.bounds.x = F32.fin 100 ∧
      sample_center.layout =
        Layout.wrap HorizontalAlign.center VerticalAlign.top) ∧
    (sample_center.generate_varied_section trivial_context
        { x := F32.fin 7, y := F32.fin 3 } none).screen_position.1 =
      F32.add (F32.fin 7) (F32.fin (100 * (1 / 2))) :=
  ⟨⟨rfl, rfl⟩, (C6_position_adjustment sample_center trivial_context
    { x := F32.fin 7, y := F32.fin 3 } none).2.1 100 VerticalAlign.top
    rfl rfl⟩

/-- C7: each fragment yields one style run in order; its color is the
first present of fragment color, per-call override, and context default;
its font and scale fall back to the aggregate defaults.  On the two
fragments `("Hi, ", none)` and `("World", Red)` built with override Blue,
the runs resolve to Blue then Red. -/
theorem C7_style_resolution (s : TextCached) (context : Context)
    (rd : Point2) (oc : Option Color) :
    (s.generate_varied_section context rd oc).text =
      s.fragments.map (fun fragment =>
        { text := fragment.text
          color := fragment.color.getD (oc.getD context.default_color)
          font_id := fragment.font_id.getD s.font_id
          scale := fragment.scale.getD s.font_scale }) ∧
    (hi_world.generate_varied_section context rd
        (some blue)).text.map SectionText.color = [blue, red] := by
  constructor
  · simp only [TextCached.generate_varied_section]
    refine List.map_congr_left ?_
    intro frag _
    rcases frag with ⟨t, c, fi, sc⟩
    cases c <;> cases oc <;> cases fi <;> cases sc <;> rfl
  · rfl

/-- Appending fragments one by one appends to the fragment sequence. -/
theorem foldl_add_fragment_fragments (frags : List TextFragment)
    (s : TextCached) :
    (frags.foldl TextCached.add_fragment s).fragments =
      s.fragments ++ frags := by
  induction frags generalizing s with
  | nil => simp
  | cons f rest ih =>
    simp [ih, TextCached.add_fragment, TextCached.invalidate_caches]

/-- Appending fragments never populates the string cache. -/
theorem foldl_add_fragment_cached_string (frags : List TextFragment)
    (s : TextCached) (h : s.cached_string = none) :
    (frags.foldl TextCached.add_fragment s).cached_string = none := by
  induction frags generalizing s with
  | nil => exact h
  | cons f rest ih => exact ih _ rfl

/-- C8: starting from an empty aggregate, after any sequence of
`add_fragment` calls `contents` returns exactly the ordered concatenation
of the fragment texts, with no separators; with zero fragments it returns
the empty string. -/
theorem C8_contents_concatenation (frags : List TextFragment) :
    ((frags.foldl TextCached.add_fragment TextCached.default).contents).1 =
      String.join (frags.map TextFragment.text) ∧
    (TextCached.default.contents).1 = "" := by
  constructor
  · have hs := foldl_add_fragment_cached_string frags TextCached.default rfl
    have hf := foldl_add_fragment_fragments frags TextCached.default
    simp only [TextCached.contents, hs, hf]
    simp [TextCached.default, String.join, List.foldl_map]
  · rfl

/-- C9: a `width` (resp. `height`) call on a state with empty measurement
caches fills both cache fields from one pass; the other accessor then
returns the value measured by that pass and leaves the state untouched,
even against a different context — it does not invoke the layout
computation again. -/
theorem C9_single_measurement_pass (s : TextCached)
    (context context' : Context) (hw : s.cached_width = none)
    (hh : s.cached_height = none) :
    ((s.width context).2.cached_width = some ((s.measured context).1) ∧
     (s.width context).2.cached_height = some ((s.measured context).2) ∧
     ((s.width context).2).height context' =
       ((s.measured context).2, (s.width context).2)) ∧
    ((s.height context).2.cached_width = some ((s.measured context).1) ∧
     (s.height context).2.cached_height = some ((s.measured context).2) ∧
     ((s.height context).2).width context' =
       ((s.measured context).1, (s.height context).2)) := by
  have hws : (s.width context).2 =
      { s with cached_width := some (s.measured context).1,
               cached_height := some (s.measured context).2 } := by
    simp [TextCached.width, hw, TextCached.calculate_dimensions_state]
  have hhs : (s.height context).2 =
      { s with cached_width := some (s.measured context).1,
               cached_height := some (s.measured context).2 } := by
    simp [TextCached.height, hh, TextCached.calculate_dimensions_state]
  rw [hws, hhs]
  exact ⟨⟨rfl, rfl, rfl⟩, ⟨rfl, rfl, rfl⟩⟩

/-- C9 witness: on a fresh aggregate, `width` then `height` returns the
height measured by the `width` pass without touching the state. -/
theorem C9_single_measurement_pass_witness :
    (TextCached.default.cached_width = none ∧
      TextCached.default.cached_height = none) ∧
    ((TextCached.default.width trivial_context).2).height trivial_context =
      ((TextCached.default.measured trivial_context).2,
        (TextCached.default.width trivial_context).2) :=
  ⟨⟨rfl, rfl⟩, ((C9_single_measurement_pass TextCached.default
    trivial_context trivial_context rfl rfl).1).2.2⟩

/-- C10: `set_blend_mode` changes only the blend-mode field — fragments,
bounds, layout, default font and scale, and all three caches are
untouched (in particular the measurement cache is NOT invalidated) — and
`get_blend_mode` then returns the stored mode. -/
theorem C10_set_blend_mode (s : TextCached) (m : Option BlendMode) :
    s.set_blend_mode m = { s with blend_mode := m } ∧
    (s.set_blend_mode m).fragments = s.fragments ∧
    (s.set_blend_mode m).bounds = s.bounds ∧
    (s.set_blend_mode m).layout = s.layout ∧
    (s.set_blend_mode m).font_id = s.font_id ∧
    (s.set_blend_mode m).font_scale = s.font_scale ∧
    (s.set_blend_mode m).cached_string = s.cached_string ∧
    (s.set_blend_mode m).cached_width = s.cached_width ∧
    (s.set_blend_mode m).cached_height = s.cached_height ∧
    (s.set_blend_mode m).get_blend_mode = m :=
  ⟨rfl, rfl, rfl, rfl, rfl, rfl, rfl, rfl, rfl, rfl⟩

/-- C4 counterexample: one `width()` call on a fresh aggregate is a
reachable public-API state whose measurement caches are populated while the
string cache is not — neither all-absent nor all-present. -/
theorem C4_cache_counterexample :
    ¬ (TextCached.all_caches_none
        (TextCached.run trivial_context [TextCached.Op.getWidth]) ∨
      (TextCached.all_caches_some
          (TextCached.run trivial_context [TextCached.Op.getWidth]) ∧
        TextCached.cache_consistent
          (TextCached.run trivial_context [TextCached.Op.getWidth])
          trivial_context)) := by
  have h : TextCached.run trivial_context [TextCached.Op.getWidth] =
      { TextCached.default with
          cached_width := some 0, cached_height := some 0 } := rfl
  rw [h]
  rintro (⟨h1, h2, h3⟩ | ⟨⟨h1, h2, h3⟩, hcons⟩)
  · exact Option.noConfusion h2
  · exact h1 rfl

/-- C4 amended: in every state reachable through the public API the two
measurement caches are populated together, and every populated cache field
(string included) is consistent with the current
fragment/bounds/layout/default-style state; the string cache, however, is
populated independently of the measurement pair. -/
theorem C4_cache_invariant_reachable (context : Context)
    (ops : List TextCached.Op) :
    TextCached.cache_invariant (TextCached.run context ops) context := by
  suffices h : ∀ s, TextCached.cache_invariant s context →
      TextCached.cache_invariant (ops.foldl (TextCached.apply context) s)
        context by
    exact h _ (TextCached.cache_invariant_of_none _ _ ⟨rfl, rfl, rfl⟩)
  induction ops with
  | nil => exact fun s hs => hs
  | cons op rest ih =>
    exact fun s hs => ih _ (TextCached.cache_invariant_apply context s op hs)

/-- C2 counterexample: the transform `draw_queued` composes does not act
as the chain the claim words.  Two concrete inputs refute it, one per
divergence: on a 2×1 screen with rotation π/2 and zero shear the claimed
aspect order differs from the code's, and on a 1×1 screen with zero
rotation and shear (1, 0) the claimed shear convention differs from the
code's row-major shear matrix. -/
theorem C2_transform_counterexample :
    apply_transform
        (m_transform
          { dest := (0, 0), rotation := Real.pi / 2, scale := (1, 1),
            shear := (0, 0) } 2 1) (0, 0) ≠
      claimed_chain
        { dest := (0, 0), rotation := Real.pi / 2, scale := (1, 1),
          shear := (0, 0) } 2 1 (0, 0) ∧
    apply_transform
        (m_transform
          { dest := (0, 0), rotation := 0, scale := (1, 1),
            shear := (1, 0) } 1 1) (0, 0) ≠
      claimed_chain
        { dest := (0, 0), rotation := 0, scale := (1, 1),
          shear := (1, 0) } 1 1 (0, 0) := by
  constructor
  · rw [m_transform_eval]
    simp only [amended_chain, claimed_chain, translateP, scaleYP, rotateP,
      scaleP, shearP]
    norm_num [Real.cos_pi_div_two, Real.sin_pi_div_two, Prod.mk.injEq]
  · rw [m_transform_eval]
    simp only [amended_chain, claimed_chain, translateP, scaleYP, rotateP,
      scaleP, shearP]
    norm_num [Real.cos_zero, Real.sin_zero, Prod.mk.injEq]

/-- C2 amended: the transform composed by `draw_queued` acts on every
point as the chain of the claim with the two aspect factors exchanged —
the y-scale applied before rotation/scale/shear is `screen_h/screen_w`
and the one applied after is `screen_w/screen_h` — and with the shear
cross terms driven by the same-axis shear components, both negated: the x
cross term is `-shear.x` and the y cross term `-shear.y`. -/
theorem C2_transform_amended (p : DrawParam) (screen_w screen_h : ℝ)
    (pt : ℝ × ℝ) :
    apply_transform (m_transform p screen_w screen_h) pt =
      amended_chain p screen_w screen_h pt :=
  m_transform_eval p screen_w screen_h pt
